import Mathlib

/-
Verification of the aqua HTTP router (src/aqua.ts).

The development shallowly embeds the routing, parsing and response-assembly
logic of the `Aqua` class.  Strings are modelled as `List Char` at the
algorithmic level (with `String` wrappers at the data-model level), JS objects
used as string maps are modelled as insertion-ordered association lists with
overwrite-in-place semantics (matching object spread `{...m, [k]: v}`), and JS
`undefined`/`null` values are modelled with `Option`.  The regular expressions
that the source builds out of route templates use only literal characters
(over the path alphabet, which contains no regex metacharacters), the lazy
wildcard `.*?` and the greedy capturing group `([^/]*)`; they are embedded as
lists of `PatSeg` segments with an explicit backtracking matcher whose
candidate order (leftmost position, lazy shortest-first, greedy longest-first)
coincides with the JS regex engine on this fragment.

All definitions are structurally recursive so that concrete runs evaluate
inside the kernel.
-/

set_option maxRecDepth 20000

namespace Aqua

/-- JS-object update `{...m, [k]: v}`: overwrite in place if the key exists,
otherwise append. -/
def setKey {α : Type} : List (String × α) → String → α → List (String × α)
  | [], k, v => [(k, v)]
  | (k', v') :: rest, k, v =>
    if k' = k then (k, v) :: rest else (k', v') :: setKey rest k v

/-- JS-object lookup `m[k]`, `none` playing the role of `undefined`. -/
def lookupKey {α : Type} (m : List (String × α)) (k : String) : Option α :=
  (m.find? (fun kv => kv.1 == k)).map (fun kv => kv.2)

/-- Leftmost index at which `pat` occurs as a contiguous sublist of `s`
(`String.indexOf`-style search; `some 0` for the empty pattern). -/
def firstOccIdx (pat : List Char) : List Char → Option Nat
  | [] => if pat.isPrefixOf ([] : List Char) then some 0 else none
  | c :: rest =>
    if pat.isPrefixOf (c :: rest) then some 0
    else (firstOccIdx pat rest).map (fun i => i + 1)

/-- JS `s.replace(pat, repl)` with a string pattern: replace the first literal
occurrence, or return `s` unchanged when there is none. -/
def replaceFirstOccL (pat repl s : List Char) : List Char :=
  match firstOccIdx pat s with
  | none => s
  | some i => s.take i ++ repl ++ s.drop (i + pat.length)

/-- Fuel-driven worker for `splitOnSub`; the fuel starts at the length of the
input, which the scan never outruns. -/
def splitGo (sep : List Char) : Nat → List Char → List (List Char)
  | _, [] => [[]]
  | 0, s => [s]
  | fuel + 1, c :: rest =>
    if sep.isPrefixOf (c :: rest) && !sep.isEmpty then
      [] :: splitGo sep fuel ((c :: rest).drop sep.length)
    else
      match splitGo sep fuel rest with
      | [] => [[c]]
      | h :: t => (c :: h) :: t

/-- JS `s.split(sep)` for a nonempty separator string. -/
def splitOnSub (sep s : List Char) : List (List Char) :=
  if sep.isEmpty then [s] else splitGo sep s.length s

/-- Numeric value of a hexadecimal digit. -/
def hexVal (c : Char) : Option Nat :=
  if c.isDigit then some (c.toNat - 48)
  else if 'a' ≤ c && c ≤ 'f' then some (c.toNat - 87)
  else if 'A' ≤ c && c ≤ 'F' then some (c.toNat - 55)
  else none

/-- ASCII fragment of JS `decodeURIComponent`: decode each valid `%XX` escape
to the corresponding character, leave other characters untouched.  (The inputs
appearing in this development contain no percent escapes.) -/
def decodeURIComponent : List Char → List Char
  | [] => []
  | '%' :: a :: b :: rest =>
    match hexVal a, hexVal b with
    | some x, some y => Char.ofNat (16 * x + y) :: decodeURIComponent rest
    | _, _ => '%' :: decodeURIComponent (a :: b :: rest)
  | c :: rest => c :: decodeURIComponent rest

/-- ASCII fragment of JS `trimLeft`: drop leading whitespace. -/
def trimLeftL (s : List Char) : List Char :=
  s.dropWhile (fun c => c = ' ' || c = '\t' || c = '\n' || c = '\r')

/-- JS `s.toUpperCase()` (character-wise, ASCII). -/
def toUpperStr (s : String) : String :=
  String.mk (s.toList.map Char.toUpper)

/-- Header-name lower-casing as performed by `Headers` (character-wise,
ASCII). -/
def toLowerStr (s : String) : String :=
  String.mk (s.toList.map Char.toLower)

/-- JS `s.startsWith("/")`. -/
def startsWithSlash (s : String) : Bool :=
  ['/'].isPrefixOf s.toList

/-- Join path segments with `/` (inverse of splitting on `/`). -/
def joinSlash : List (List Char) → List Char
  | [] => []
  | [s] => s
  | s :: rest => s ++ '/' :: joinSlash rest

/-- Segment of an embedded regular expression: a literal run, the lazy
wildcard `.*?`, or the greedy capturing group `([^/]*)`. -/
inductive PatSeg where
  | lit : List Char → PatSeg
  | lazyAny : PatSeg
  | starNonSlash : PatSeg

/-- Backtracking match of a pattern against a prefix of `s`; returns the
number of consumed characters and the capture-group values, trying candidates
in JS engine order (lazy shortest-first, greedy longest-first). -/
def matchHere : List PatSeg → List Char → Option (Nat × List (List Char))
  | [], _ => some (0, [])
  | .lit l :: rest, s =>
    if l.isPrefixOf s then
      (matchHere rest (s.drop l.length)).map (fun p => (l.length + p.1, p.2))
    else none
  | .lazyAny :: rest, s =>
    (List.range (s.length + 1)).findSome?
      (fun k => (matchHere rest (s.drop k)).map (fun p => (k + p.1, p.2)))
  | .starNonSlash :: rest, s =>
    ((List.range ((s.takeWhile (fun c => c ≠ '/')).length + 1)).reverse).findSome?
      (fun k => (matchHere rest (s.drop k)).map (fun p => (k + p.1, s.take k :: p.2)))

/-- Unanchored leftmost search (JS `s.match(re)` / `re.test(s)`): the start
index, the length of the match and the captures of the first position where
the pattern matches. -/
def patSearchFrom (pat : List PatSeg) : List Char → Option (Nat × Nat × List (List Char))
  | [] => (matchHere pat []).map (fun p => (0, p.1, p.2))
  | c :: rest =>
    match matchHere pat (c :: rest) with
    | some p => some (0, p.1, p.2)
    | none => (patSearchFrom pat rest).map (fun r => (r.1 + 1, r.2.1, r.2.2))

/-- JS `s.replace(re, "")` for an embedded regex: remove the leftmost match,
or return `s` unchanged when the pattern matches nowhere. -/
def patReplaceFirst (pat : List PatSeg) (s : List Char) : List Char :=
  match patSearchFrom pat s with
  | none => s
  | some r => s.take r.1 ++ s.drop (r.1 + r.2.1)

/-- Anchored full-string match of a pattern, returning the captures. -/
def matchAll : List PatSeg → List Char → Option (List (List Char))
  | [], s => if s.isEmpty then some [] else none
  | .lit l :: rest, s => if l.isPrefixOf s then matchAll rest (s.drop l.length) else none
  | .lazyAny :: rest, s =>
    (List.range (s.length + 1)).findSome? (fun k => matchAll rest (s.drop k))
  | .starNonSlash :: rest, s =>
    ((List.range ((s.takeWhile (fun c => c ≠ '/')).length + 1)).reverse).findSome?
      (fun k => (matchAll rest (s.drop k)).map (fun caps => s.take k :: caps))

/-- Character class `[a-zA-Z0-9_]` used by the parameter-token regex
`/:([a-zA-Z0-9_]*)/`. -/
def isTokenChar (c : Char) : Bool :=
  c.isAlphanum || c = '_'

/-- Worker for `findTokens`: `acc` holds the reversed characters of the token
currently being scanned, if any. -/
def findTokensAux : List Char → Option (List Char) → List (List Char)
  | [], none => []
  | [], some acc => [':' :: acc.reverse]
  | c :: rest, none =>
    if c = ':' then findTokensAux rest (some []) else findTokensAux rest none
  | c :: rest, some acc =>
    if isTokenChar c then findTokensAux rest (some (c :: acc))
    else (':' :: acc.reverse) :: findTokensAux rest (if c = ':' then some [] else none)

/-- JS `s.match(/:([a-zA-Z0-9_]*)/g)`: every parameter token `:name` of a route
template, each with its leading colon, in declaration order. -/
def findTokens (s : List Char) : List (List Char) :=
  findTokensAux s none

/-- First parameter-token occurrence in a string, split as
(text before, the token `:name`, text after); `none` if there is no colon.
This is the shape of a single (non-global) `replace(/:([a-zA-Z0-9_]*)/, …)`. -/
def findTokenSplit : List Char → Option (List Char × List Char × List Char)
  | [] => none
  | c :: rest =>
    if c = ':' then
      some ([], ':' :: rest.takeWhile isTokenChar, rest.dropWhile isTokenChar)
    else
      (findTokenSplit rest).map (fun bta => (c :: bta.1, bta.2.1, bta.2.2))

/-- JS `partTill.replace(/:([a-zA-Z0-9_]*)/, ".*?")` compiled to a pattern:
the first parameter token becomes the lazy wildcard, everything else stays
literal (any later `:name` remains literal regex text, as in the source). -/
def connectPatternOf (partTill : List Char) : List PatSeg :=
  match findTokenSplit partTill with
  | none => [.lit partTill]
  | some bta => [.lit bta.1, .lazyAny, .lit bta.2.2]

/-- JS `s.replace(/:([a-zA-Z0-9_]*)/, "")`: remove the first parameter token,
or leave the string unchanged if there is none. -/
def replaceFirstToken (s : List Char) : List Char :=
  match findTokenSplit s with
  | none => s
  | some bta => bta.1 ++ bta.2.2

/-- Worker for `urlParameterRegexOf`: `acc` is the reversed pending literal
run, `inTok` says whether we are currently skipping a token's name. -/
def urlRegexAux : List Char → Bool → List Char → List PatSeg
  | acc, _, [] => [.lit acc.reverse]
  | acc, false, c :: rest =>
    if c = ':' then .lit acc.reverse :: .starNonSlash :: urlRegexAux [] true rest
    else urlRegexAux (c :: acc) false rest
  | acc, true, c :: rest =>
    if isTokenChar c then urlRegexAux acc true rest
    else if c = ':' then .lit acc.reverse :: .starNonSlash :: urlRegexAux [] true rest
    else urlRegexAux (c :: acc) false rest

/-- JS `new RegExp(path.replace(/:([a-zA-Z0-9_]*)/g, "([^\/]*)"))` (aqua.ts
line 369): each parameter token becomes a greedy capturing group matching a
run of non-`/` characters, the rest of the template is literal. -/
def urlParameterRegexOf (path : List Char) : List PatSeg :=
  urlRegexAux [] false path

/-- JS `/:[a-zA-Z]/.test(path)` (aqua.ts line 364): does the template contain
a colon immediately followed by a letter? -/
def hasColonLetter : List Char → Bool
  | ':' :: c :: rest => c.isAlpha || hasColonLetter (c :: rest)
  | _ :: rest => hasColonLetter rest
  | [] => false

/-- Normalized handler response (the union `ContentResponse | RedirectResponse`
of aqua.ts: every field is optional at the JS level except that at least one of
`content`/`redirect` is meant to be present, which the code never enforces). -/
structure Response where
  statusCode : Option Nat := none
  headers : List (String × String) := []
  cookies : List (String × String) := []
  redirect : Option String := none
  content : Option String := none
deriving DecidableEq

/-- Raw handler result: a plain string, a structured response object, or a
nullish value (JS `null`/`undefined`). -/
inductive RawResponse where
  | str : String → RawResponse
  | obj : Response → RawResponse
  | nullish : RawResponse

/-- The normalized `Request` value built in `handleRequests` (aqua.ts lines
293–303).  The `raw : ServerRequest` field (the transport handle used only for
`respond`) is not part of the embedding; emission is modelled by the
`DispatchResult` type instead.  `body` is built by `parseBody`, which reads the
request body stream (external I/O); no claim depends on it, so it is carried
as an opaque map. -/
structure Request where
  url : String
  method : String
  headers : List (String × String)
  query : List (String × String)
  body : List (String × String) := []
  cookies : List (String × Option String) := []
  parameters : List (String × String) := []
  «matches» : List String := []

/-- Response handler: may throw (modelled by `Except.error` carrying the JS
exception). -/
def Handler : Type :=
  Request → Except String RawResponse

/-- Middleware `(req, res) => res'`; a falsy JS result is modelled as `none`. -/
def Middleware : Type :=
  Request → Response → Option Response

/-- A string-template route (aqua.ts `Route`). -/
structure Route where
  path : String
  usesURLParameters : Bool
  urlParameterRegex : Option (List PatSeg) := none
  responseHandler : Handler

/-- A regex route (aqua.ts `RegexRoute`). -/
structure RegexRoute where
  pattern : List PatSeg
  responseHandler : Handler

/-- A static route (aqua.ts `StaticRoute`). -/
structure StaticRoute where
  folder : String
  path : String
deriving DecidableEq

/-- The argument of `req.raw.respond`: status (absent defaults to 200 in the
transport layer), header list (appends preserved), body string. -/
structure ServerResponse where
  status : Option Nat := none
  headers : List (String × String) := []
  body : String := ""
deriving DecidableEq

/-- A JS exception escaping the dispatcher: either a value thrown by a
handler, or a `TypeError` raised by the dispatcher itself (property access on
a nullish value). -/
inductive Exc where
  | thrown : String → Exc
  | typeError : String → Exc
deriving DecidableEq

/-- Observable outcome of handling one request: a response handed to the
transport layer, a file path handed to the static file reader
(`Deno.readFile` in `respondToStaticRequest`; the subsequent content-type
lookup and read-failure 404 are external I/O), or an uncaught exception. -/
inductive DispatchResult where
  | respond : ServerResponse → DispatchResult
  | staticRead : String → DispatchResult
  | crash : Exc → DispatchResult
deriving DecidableEq

/-- The mutable registration state of an `Aqua` instance (servers, TLS and
logging options omitted: they are transport-layer concerns). -/
structure AquaState where
  routes : List (String × Route) := []
  regexRoutes : List RegexRoute := []
  middlewares : List Middleware := []
  staticRoutes : List StaticRoute := []
  fallbackHandler : Option Handler := none
  ignoreTrailingSlash : Bool := false

/-- JS truthiness of an optional string (`undefined`, `null` and `""` are
falsy). -/
def truthyOptStr : Option String → Bool
  | none => false
  | some s => s ≠ ""

/-- JS `x || d` for an optional status code (`undefined` and `0` give `d`). -/
def jsOrNat : Option Nat → Nat → Nat
  | none, d => d
  | some n, d => if n = 0 then d else n

/-- JS `x || d` for an optional body string (`undefined` and `""` give `d`). -/
def jsOrStr : Option String → String → String
  | none, d => d
  | some s, d => if s = "" then d else s

/-- Case-insensitive header lookup (`Headers.get`). -/
def headersGet (hs : List (String × String)) (name : String) : Option String :=
  (hs.find? (fun h => toLowerStr h.1 == toLowerStr name)).map (fun h => h.2)

/-- aqua.ts `parseQuery` (lines 139–152): nothing without `?`; otherwise the
suffix after the last `?` (`url.replace(/(.*)\?/, "")`, greedy) is split on
`&`; a pair is skipped when it is empty, its part before the first `=` is
empty, or it has no `=` at all (`split("=")[1] === undefined`); kept pairs map
the percent-decoded key to the percent-decoded value, with `+` replaced by a
space in the value before decoding.  Note `[0]`/`[1]` of the full `=`-split:
the value is the text between the first and second `=`. -/
def parseQuery (url : String) : List (String × String) :=
  if !url.toList.contains '?' then []
  else
    let queryString := splitOnSub ['&'] ((url.toList.reverse.takeWhile (fun c => c ≠ '?')).reverse)
    queryString.foldl
      (fun queries query =>
        let parts := splitOnSub ['='] query
        if query.isEmpty || (parts.headD []).isEmpty || parts.length < 2 then queries
        else
          setKey queries
            (String.mk (decodeURIComponent (parts.headD [])))
            (String.mk (decodeURIComponent
              ((parts.getD 1 []).map (fun c => if c = '+' then ' ' else c)))))
      []

/-- aqua.ts `parseCookies` (lines 154–165): read the `cookie` header (empty or
absent gives the empty map), split it on `;`, and map each entry's part before
the first `=` (left-trimmed) to the part between the first and second `=`
(`undefined`, i.e. `none`, when the entry has no `=`).  No value decoding. -/
def parseCookies (headers : List (String × String)) : List (String × Option String) :=
  match headersGet headers "cookie" with
  | none => []
  | some raw =>
    if raw = "" then []
    else
      (splitOnSub [';'] raw.toList).foldl
        (fun cookies cookie =>
          let parts := splitOnSub ['='] cookie
          setKey cookies
            (String.mk (trimLeftL (parts.headD [])))
            ((parts.get? 1).map String.mk))
        []

/-- aqua.ts `connectURLParameters` (lines 167–185): fold over the template's
parameter tokens; for each token, the part of the template before the token's
first occurrence (with its own first token made lazy) is removed from the
current requested path, and the leading run of non-`/` characters of what
remains is the parameter's value; the current requested path then has its
first parameter token removed (a no-op for colon-free requested paths). -/
def connectURLParameters (routePath requestedPath : List Char) : List (String × String) :=
  ((findTokens routePath).foldl
    (fun (storage : List (String × String) × List Char) urlParameterWithColon =>
      let urlParameter := replaceFirstOccL [':'] [] urlParameterWithColon
      let partTillParameter := (splitOnSub urlParameterWithColon routePath).headD []
      let urlParameterValue :=
        (patReplaceFirst (connectPatternOf partTillParameter) storage.2).takeWhile
          (fun c => c ≠ '/')
      (setKey storage.1 (String.mk urlParameter) (String.mk urlParameterValue),
        replaceFirstToken storage.2))
    ([], requestedPath)).1

/-- aqua.ts `formatRawResponse` (lines 187–189): a plain string becomes
`{content: value}`, an object passes through, a nullish value stays falsy. -/
def formatRawResponse : RawResponse → Option Response
  | .str s => some { content := some s }
  | .obj r => some r
  | .nullish => none

/-- The middleware fold of `respondToRequest` (lines 214–218): left-to-right
reduce starting from the formatted response; once the current value is falsy
it propagates unchanged. -/
def foldMiddlewares (mws : List Middleware) (req : Request) (fr : Response) : Option Response :=
  if mws.isEmpty then some fr
  else mws.foldl (fun current mw =>
    match current with
    | none => none
    | some c => mw req c) (some fr)

/-- Cookie entries turned into appended `Set-Cookie` headers (lines 221–224 /
252–255). -/
def setCookieHeaders (cookies : List (String × String)) : List (String × String) :=
  cookies.map (fun c => ("Set-Cookie", c.1 ++ "=" ++ c.2))

/-- Success-path response assembly (aqua.ts lines 219–235): headers, cookies
and the redirect test all read `formattedResponse` (the pre-middleware value
`fr`), while the status and the body read `responseAfterMiddlewares` (`ram`);
a truthy redirect appends `Location` and defaults the status to 301. -/
def assembleSuccess (fr ram : Response) : ServerResponse :=
  let headers := fr.headers ++ setCookieHeaders fr.cookies
  if truthyOptStr fr.redirect then
    { status := some (jsOrNat ram.statusCode 301)
      headers := headers ++ [("Location", fr.redirect.getD "")]
      body := jsOrStr ram.content "No response content provided." }
  else
    { status := ram.statusCode
      headers := headers
      body := jsOrStr ram.content "No response content provided." }

/-- Fallback-path response assembly (aqua.ts lines 247–264): status defaults
to 301 when a truthy redirect is present, otherwise to 404; headers, cookies
and `Location` all come from the fallback response itself. -/
def assembleFallback (fr : Response) : ServerResponse :=
  let statusCode := if truthyOptStr fr.redirect then jsOrNat fr.statusCode 301
    else jsOrNat fr.statusCode 404
  let headers := fr.headers ++ setCookieHeaders fr.cookies
  let headers := if truthyOptStr fr.redirect then headers ++ [("Location", fr.redirect.getD "")]
    else headers
  { status := some statusCode
    headers := headers
    body := jsOrStr fr.content "No fallback response content provided." }

/-- aqua.ts `respondWithNoRouteFound` (lines 238–269): with no fallback
handler, a fixed 404; otherwise the fallback handler runs (exceptions
propagate), a falsy result yields the fixed 404, and a response object is
assembled with fallback defaults.  Middlewares are not applied on this path. -/
def respondWithNoRouteFound (st : AquaState) (req : Request) : DispatchResult :=
  match st.fallbackHandler with
  | none => .respond { status := some 404, headers := [], body := "No registered route found." }
  | some fallbackHandler =>
    match fallbackHandler req with
    | .error e => .crash (.thrown e)
    | .ok raw =>
      match formatRawResponse raw with
      | none => .respond { status := some 404, headers := [], body := "No registered route found." }
      | some fallbackResponse => .respond (assembleFallback fallbackResponse)

/-- The template path of a `Route | RegexRoute` union value, as used by the
`route as Route` cast at aqua.ts line 197 (only reached for template routes). -/
def unionPath : Route ⊕ RegexRoute → String
  | .inl r => r.path
  | .inr _ => ""

/-- aqua.ts `respondToRequest` (lines 195–236).  With `usesURLParameters`,
parameters are extracted first and any empty extracted value short-circuits to
`respondWithNoRouteFound`.  For a regex route, `req.matches` is set from the
unanchored match (a missing match would be a `TypeError` on `null.slice`).
The handler runs unguarded (exceptions propagate); its result is normalized,
a falsy normalized response yields the fixed no-content reply, and otherwise
the middleware fold runs.  A falsy fold result is dereferenced by the
assembly code (`responseAfterMiddlewares.statusCode` / `.content`), which is a
`TypeError` at the JS level, modelled as a crash. -/
def respondToRequest (st : AquaState) (req0 : Request) (requestedPath : String)
    (route : Route ⊕ RegexRoute) (usesURLParameters : Bool) : DispatchResult :=
  let req1 := if usesURLParameters then
      { req0 with parameters := connectURLParameters (unionPath route).toList requestedPath.toList }
    else req0
  if usesURLParameters && req1.parameters.any (fun kv => kv.2 == "") then
    respondWithNoRouteFound st req1
  else
    match (match route with
      | .inl _ => some req1
      | .inr rr =>
        (patSearchFrom rr.pattern requestedPath.toList).map
          (fun m => { req1 with «matches» := m.2.2.map String.mk })) with
    | none => .crash (.typeError "null has no method slice")
    | some req =>
      match (match route with
        | .inl r => r.responseHandler req
        | .inr rr => rr.responseHandler req) with
      | .error e => .crash (.thrown e)
      | .ok raw =>
        match formatRawResponse raw with
        | none =>
          .respond { status := none, headers := [], body := "No response content provided." }
        | some formattedResponse =>
          match foldMiddlewares st.middlewares req formattedResponse with
          | none => .crash (.typeError "property access on falsy middleware result")
          | some responseAfterMiddlewares =>
            .respond (assembleSuccess formattedResponse responseAfterMiddlewares)

/-- aqua.ts `respondToStaticRequest` (lines 277–287): the resource path is the
requested path with the first literal occurrence of the route's public prefix
removed, and the file handed to the reader is the route's folder concatenated
with that resource path — with no rejection or normalization of `..`
segments.  The extension-based content-type lookup and the read itself are
external I/O. -/
def respondToStaticRequest (requestedPath : String) (staticRoute : StaticRoute) :
    DispatchResult :=
  .staticRead (staticRoute.folder
    ++ String.mk (replaceFirstOccL staticRoute.path.toList [] requestedPath.toList))

/-- Modelled from the spec: `Router.parseRequestPath` (router.ts, which is
imported by aqua.ts but not part of src/) — the requested path is the URL with
the query-string suffix introduced by `?` removed (§4.3: the query map is
parsed from the suffix after `?`; route matching uses the path). -/
def parseRequestPath (url : String) : String :=
  String.mk (url.toList.takeWhile (fun c => c ≠ '?'))

/-- Modelled from the spec: `Router.findRouteWithMatchingURLParameters`
(router.ts, not in src/) — §4.5 step 2 tries every registered route whose
template contains parameter tokens, in registration order; the compiled
pattern (one capture group per token) is matched against the requested path,
and a match whose extracted values include an empty string is treated as no
match, continuing with the next candidate. -/
def findRouteWithMatchingURLParameters (requestedPath : String)
    (routes : List (String × Route)) : Option Route :=
  (routes.map (fun kv => kv.2)).find? (fun r =>
    r.usesURLParameters &&
      match r.urlParameterRegex with
      | none => false
      | some pat =>
        match patSearchFrom pat requestedPath.toList with
        | none => false
        | some m => m.2.2.all (fun capture => !capture.isEmpty))

/-- Modelled from the spec: `Router.findMatchingRegexRoute` (router.ts, not in
src/) — §4.2 scans the ordered regex-route list and returns the first whose
pattern matches the full requested path. -/
def findMatchingRegexRoute (requestedPath : String) (regexRoutes : List RegexRoute) :
    Option RegexRoute :=
  regexRoutes.find? (fun r => (matchAll r.pattern requestedPath.toList).isSome)

/-- Modelled from the spec: `Router.findMatchingStaticRoute` (router.ts, not
in src/) — §4.2 scans the ordered static-route list for the first entry whose
public prefix is a literal string prefix of the requested path. -/
def findMatchingStaticRoute (requestedPath : String) (staticRoutes : List StaticRoute) :
    Option StaticRoute :=
  staticRoutes.find? (fun sr => sr.path.toList.isPrefixOf requestedPath.toList)

/-- JS `s.replace(/\/$/, "") + "/"`: normalize to exactly one trailing
slash. -/
def withOneTrailingSlash (s : String) : String :=
  String.mk ((if s.toList.getLast? = some '/' then s.toList.dropLast else s.toList) ++ ['/'])

/-- aqua.ts `route` for a string path (lines 355–373): reject templates not
starting with `/`; normalize the trailing slash under `ignoreTrailingSlash`;
detect parameter usage with `/:[a-zA-Z]/`; compile the parameter regex; store
under the key `method.toUpperCase() + path` (overwriting an equal key). -/
def routeReg (st : AquaState) (path : String) (method : String) (handler : Handler) :
    Except String AquaState :=
  if !startsWithSlash path then .error "Routes must start with a slash"
  else
    let path := if st.ignoreTrailingSlash then withOneTrailingSlash path else path
    let usesURLParameters := hasColonLetter path.toList
    .ok { st with
      routes := setKey st.routes (toUpperStr method ++ path)
        { path := path
          usesURLParameters := usesURLParameters
          urlParameterRegex :=
            if usesURLParameters then some (urlParameterRegexOf path.toList) else none
          responseHandler := handler } }

/-- aqua.ts `route` for a `RegExp` path (lines 356–359): append to the ordered
regex-route list. -/
def routeRegRegex (st : AquaState) (pattern : List PatSeg) (handler : Handler) : AquaState :=
  { st with regexRoutes := st.regexRoutes ++ [{ pattern := pattern, responseHandler := handler }] }

/-- aqua.ts `serve` (lines 385–388): reject prefixes not starting with `/`;
normalize folder and prefix to one trailing slash; append to the ordered
static-route list. -/
def serveReg (st : AquaState) (folder path : String) : Except String AquaState :=
  if !startsWithSlash path then .error "Routes must start with a slash"
  else .ok { st with
    staticRoutes := st.staticRoutes
      ++ [{ folder := withOneTrailingSlash folder, path := withOneTrailingSlash path }] }

/-- aqua.ts `provideFallback` (lines 345–348). -/
def provideFallback (st : AquaState) (handler : Handler) : AquaState :=
  { st with fallbackHandler := some handler }

/-- aqua.ts `register` (lines 350–353): append a middleware. -/
def registerMiddleware (st : AquaState) (mw : Middleware) : AquaState :=
  { st with middlewares := st.middlewares ++ [mw] }

/-- The raw inbound message (the fragment of `ServerRequest` the dispatcher
reads; the body stream is external I/O). -/
structure RawRequest where
  url : String
  method : String
  headers : List (String × String) := []
  contentLength : Option Nat := none

/-- The `Request` value built at aqua.ts lines 293–303: the method is
upper-cased; the query map is parsed when the URL contains `?`; the cookie map
is parsed only when a header named `cookies` is present and truthy (note:
`parseCookies` itself reads the header named `cookie`); the body map comes
from `parseBody` when `contentLength` is truthy (stream I/O, carried as the
empty map here — no claim reads it). -/
def buildRequest (rawRequest : RawRequest) : Request :=
  { url := rawRequest.url
    method := toUpperStr rawRequest.method
    headers := rawRequest.headers
    query := if rawRequest.url.toList.contains '?' then parseQuery rawRequest.url else []
    body := []
    cookies := if truthyOptStr (headersGet rawRequest.headers "cookies") then
        parseCookies rawRequest.headers
      else []
    parameters := []
    «matches» := [] }

/-- Which arm of the precedence chain of `handleRequests` (aqua.ts lines
314–341) a request resolves to. -/
inductive Resolution where
  | exact : Route → Resolution
  | param : Route → Resolution
  | regex : RegexRoute → Resolution
  | staticMatch : StaticRoute → Resolution
  | fallback : Resolution

/-- The route-resolution cascade of `handleRequests` (aqua.ts lines 314–341):
exact lookup of `method + requestedPath` first; then the parameterized-route
search; then the regex-route search; then — only for GET — the static-route
search; and finally the fallback. -/
def resolveRoute (st : AquaState) (method requestedPath : String) : Resolution :=
  match lookupKey st.routes (method ++ requestedPath) with
  | some r => .exact r
  | none =>
    match findRouteWithMatchingURLParameters requestedPath st.routes with
    | some r => .param r
    | none =>
      match findMatchingRegexRoute requestedPath st.regexRoutes with
      | some rr => .regex rr
      | none =>
        if method = "GET" then
          match findMatchingStaticRoute requestedPath st.staticRoutes with
          | some sr => .staticMatch sr
          | none => .fallback
        else .fallback

/-- The body of the `handleRequests` loop (aqua.ts lines 289–343) for one
request: optional trailing-slash normalization of the URL, construction of the
`Request` value, then dispatch along the precedence cascade (written here via
`resolveRoute`, which is the same nested conditional as lines 314–341). -/
def handleRequest (st : AquaState) (rawRequest0 : RawRequest) : DispatchResult :=
  let rawRequest := if st.ignoreTrailingSlash then
      { rawRequest0 with url := withOneTrailingSlash rawRequest0.url }
    else rawRequest0
  let req := buildRequest rawRequest
  let requestedPath := parseRequestPath req.url
  match resolveRoute st req.method requestedPath with
  | .exact r => respondToRequest st req requestedPath (.inl r) false
  | .param r => respondToRequest st req requestedPath (.inl r) true
  | .regex rr => respondToRequest st req requestedPath (.inr rr) false
  | .staticMatch sr => respondToStaticRequest requestedPath sr
  | .fallback => respondWithNoRouteFound st req

/-- Resolution of `.` -free path segments: interpret each `..` segment as
popping the previous segment, to decide whether a computed file path escapes
its folder. -/
def resolveDots (p : String) : String :=
  String.mk (joinSlash
    ((splitOnSub ['/'] p.toList).foldl
      (fun acc seg => if seg = ['.', '.'] then acc.dropLast else acc ++ [seg]) []))

/-- An `Aqua` instance with nothing registered. -/
def emptyState : AquaState := {}

/-- Unwrap a registration result, keeping the previous state on a registration
error (none of the registrations below errors). -/
def okOr (result : Except String AquaState) (st : AquaState) : AquaState :=
  match result with
  | .ok st' => st'
  | .error _ => st

/-- State with the parameterized route `GET /a/:x`. -/
def paramRouteState : AquaState :=
  okOr (routeReg emptyState "/a/:x" "GET" (fun _ => .ok (.str "param"))) emptyState

/-- State with `GET /a/:x` and a regex route whose pattern is the literal
`/b/a/c`. -/
def paramAndRegexState : AquaState :=
  routeRegRegex paramRouteState [.lit "/b/a/c".toList] (fun _ => .ok (.str "regex"))

/-- State with only the literal regex route `/b/a/c`. -/
def regexOnlyState : AquaState :=
  routeRegRegex emptyState [.lit "/b/a/c".toList] (fun _ => .ok (.str "regex"))

/-- The request value for `GET /b/a/c`. -/
def reqBAC : Request := buildRequest { url := "/b/a/c", method := "GET" }

/-- The route value that `routeReg` stores for `GET /a/:x`. -/
def routeAX : Route :=
  { path := "/a/:x"
    usesURLParameters := true
    urlParameterRegex := some (urlParameterRegexOf "/a/:x".toList)
    responseHandler := fun _ => .ok (.str "param") }

/-- State with route `GET /` and one middleware returning a falsy value. -/
def noneMiddlewareState : AquaState :=
  registerMiddleware (okOr (routeReg emptyState "/" "GET" (fun _ => .ok (.str "x"))) emptyState)
    (fun _ _ => none)

/-- Handler whose response carries a header, a cookie and a body. -/
def handlerHdr : Handler := fun _ =>
  .ok (.obj { headers := [("X-A", "1")], cookies := [("c", "1")], content := some "body" })

/-- Middleware replacing the response with one carrying different headers,
cookies, a redirect and a different body. -/
def mwSwap : Middleware := fun _ _ =>
  some { headers := [("X-B", "2")], cookies := [("d", "2")], redirect := some "/m"
         content := some "mbody" }

/-- State with route `GET /h` (handler `handlerHdr`) and middleware `mwSwap`. -/
def headerSwapState : AquaState :=
  registerMiddleware (okOr (routeReg emptyState "/h" "GET" handlerHdr) emptyState) mwSwap

/-- A handler response whose only set field is `redirect`. -/
def redirectResp : Response := { redirect := some "/login" }

/-- Handler returning `redirectResp`. -/
def redirectHandler : Handler := fun _ => .ok (.obj redirectResp)

/-- Route value carrying `redirectHandler`. -/
def redirectRoute : Route :=
  { path := "/r", usesURLParameters := false, responseHandler := redirectHandler }

/-- State whose fallback handler is `redirectHandler` (no middlewares). -/
def redirectFallbackState : AquaState := { fallbackHandler := some redirectHandler }

/-- The request value for `GET /r`. -/
def reqR : Request := buildRequest { url := "/r", method := "GET" }

/-- State serving folder `public` under the public prefix `/files`. -/
def staticState : AquaState := okOr (serveReg emptyState "public" "/files") emptyState

/-- Handler that throws. -/
def throwHandler : Handler := fun _ => .error "boom"

/-- Route value carrying `throwHandler`. -/
def throwRoute : Route :=
  { path := "/t", usesURLParameters := false, responseHandler := throwHandler }

/-- State with the exact route `GET /t` whose handler throws. -/
def throwRouteState : AquaState := { routes := [("GET/t", throwRoute)] }

/-- Fallback handler that throws. -/
def fbThrow : Handler := fun _ => .error "fbboom"

/-- State whose fallback handler throws. -/
def fbThrowState : AquaState := { fallbackHandler := some fbThrow }

/-- The request value for `GET /t`. -/
def reqT : Request := buildRequest { url := "/t", method := "GET" }

theorem isPrefixOf_append_self (l t : List Char) : l.isPrefixOf (l ++ t) = true := by
  rw [List.isPrefixOf_iff_prefix]
  exact List.prefix_append l t

theorem firstOccIdx_of_pfx (pat s : List Char) (h : pat.isPrefixOf s = true) :
    firstOccIdx pat s = some 0 := by
  cases s <;> simp [firstOccIdx, h]

theorem replaceFirstOccL_append (pat rest : List Char) :
    replaceFirstOccL pat [] (pat ++ rest) = rest := by
  unfold replaceFirstOccL
  rw [firstOccIdx_of_pfx pat _ (isPrefixOf_append_self pat rest)]
  simp [List.drop_left]

theorem matchHere_lit_append (l t : List Char) :
    matchHere [.lit l] (l ++ t) = some (l.length, []) := by
  simp [matchHere, isPrefixOf_append_self]

theorem patSearchFrom_of_matchHere (pat : List PatSeg) (s : List Char) (n : Nat)
    (cs : List (List Char)) (h : matchHere pat s = some (n, cs)) :
    patSearchFrom pat s = some (0, n, cs) := by
  cases s <;> simp [patSearchFrom, h]

theorem patReplaceFirst_lit_append (l t : List Char) :
    patReplaceFirst [.lit l] (l ++ t) = t := by
  unfold patReplaceFirst
  rw [patSearchFrom_of_matchHere _ _ _ _ (matchHere_lit_append l t)]
  simp [List.drop_left]

theorem findTokenSplit_nocolon (p : List Char) (hp : ∀ c ∈ p, c ≠ ':') :
    findTokenSplit p = none := by
  induction p with
  | nil => rfl
  | cons c rest ih =>
    simp only [findTokenSplit, if_neg (hp c (by simp)), Option.map_eq_none']
    exact ih (fun x hx => hp x (by simp [hx]))

theorem connectPatternOf_nocolon (p : List Char) (hp : ∀ c ∈ p, c ≠ ':') :
    connectPatternOf p = [.lit p] := by
  unfold connectPatternOf
  rw [findTokenSplit_nocolon p hp]

theorem findTokensAux_nocolon_append (q : List Char) :
    ∀ p : List Char, (∀ c ∈ p, c ≠ ':') → findTokensAux (p ++ q) none = findTokensAux q none := by
  intro p
  induction p with
  | nil => intro _; rfl
  | cons c rest ih =>
    intro hp
    simp only [List.cons_append, findTokensAux, if_neg (hp c (by simp))]
    exact ih (fun x hx => hp x (by simp [hx]))

theorem findTokensAux_token (name : List Char) (hname : ∀ c ∈ name, isTokenChar c = true) :
    ∀ acc : List Char, findTokensAux name (some acc) = [':' :: (acc.reverse ++ name)] := by
  induction name with
  | nil => intro acc; simp [findTokensAux]
  | cons c rest ih =>
    intro acc
    simp only [findTokensAux, if_pos (hname c (by simp))]
    rw [ih (fun x hx => hname x (by simp [hx])) (c :: acc)]
    simp

theorem findTokens_single (p name : List Char) (hp : ∀ c ∈ p, c ≠ ':')
    (hname : ∀ c ∈ name, isTokenChar c = true) :
    findTokens (p ++ ':' :: name) = [':' :: name] := by
  unfold findTokens
  rw [findTokensAux_nocolon_append (':' :: name) p hp]
  simp only [findTokensAux, if_pos rfl]
  rw [findTokensAux_token name hname []]
  simp

theorem splitGo_ne_nil (sep : List Char) (fuel : Nat) (s : List Char) :
    splitGo sep fuel s ≠ [] := by
  match fuel, s with
  | _, [] => simp [splitGo]
  | 0, c :: rest => simp [splitGo]
  | fuel + 1, c :: rest =>
    unfold splitGo
    split
    · simp
    · split <;> simp

theorem splitGo_head_colonfree (nm : List Char) :
    ∀ (p : List Char) (fuel : Nat), (∀ c ∈ p, c ≠ ':') → p.length + 1 ≤ fuel →
      (splitGo (':' :: nm) fuel (p ++ ':' :: nm)).headD [] = p := by
  intro p
  induction p with
  | nil =>
    intro fuel _ hf
    match fuel, hf with
    | fuel + 1, _ =>
      have hpre : (':' :: nm).isPrefixOf (':' :: nm) = true := by
        have h0 := isPrefixOf_append_self (':' :: nm) []
        rw [List.append_nil] at h0
        exact h0
      simp [splitGo, hpre]
  | cons c p' ih =>
    intro fuel hp hf
    match fuel, hf with
    | fuel + 1, hf =>
      have hc' : ¬(':' = c) := fun e => (hp c (by simp)) e.symm
      rcases hsg : splitGo (':' :: nm) fuel (p' ++ ':' :: nm) with _ | ⟨h, t⟩
      · exact absurd hsg (splitGo_ne_nil _ _ _)
      · have ihh := ih fuel (fun x hx => hp x (by simp [hx])) (by simp at hf; omega)
        rw [hsg] at ihh
        simp at ihh
        simp [splitGo, List.isPrefixOf, hc', hsg, ihh]

theorem splitOnSub_head_token (p nm : List Char) (hp : ∀ c ∈ p, c ≠ ':') :
    (splitOnSub (':' :: nm) (p ++ ':' :: nm)).headD [] = p := by
  unfold splitOnSub
  simp only [List.isEmpty, if_false]
  exact splitGo_head_colonfree nm p (p ++ ':' :: nm).length hp (by simp)

theorem replaceColon (name : List Char) : replaceFirstOccL [':'] [] (':' :: name) = name := by
  simp [replaceFirstOccL, firstOccIdx, List.isPrefixOf]

/-- Claim C3 (amended): for every registered single-parameter template
consisting of a colon-free literal part followed by a final `:name` token
(name over `[a-zA-Z0-9_]`), and every requested path equal to that literal
part followed by any suffix — i.e. whenever the compiled pattern's match
starts at the beginning of the requested path — parameter extraction assigns
to the token exactly the run of non-`/` characters at that token's position
(the head of the suffix); in particular registering `/api/:action` and
requesting `/api/login` yields parameters `{action: "login"}`.  (The original
claim, quantified over every path the compiled unanchored pattern matches,
fails: see the counterexample theorem.) -/
theorem connectURLParameters_single (p name v : List Char)
    (hp : ∀ c ∈ p, c ≠ ':') (hname : ∀ c ∈ name, isTokenChar c = true) :
    connectURLParameters (p ++ ':' :: name) (p ++ v)
      = [(String.mk name, String.mk (v.takeWhile (fun c => c ≠ '/')))] := by
  unfold connectURLParameters
  rw [findTokens_single p name hp hname]
  simp only [List.foldl]
  rw [replaceColon name, splitOnSub_head_token p name hp, connectPatternOf_nocolon p hp,
    patReplaceFirst_lit_append p v]
  simp [setKey]

/-- Witness for claim C3: instantiating the amended extraction theorem at the
template `/api/:action` and the requested path `/api/login`. -/
theorem connectURLParameters_single_witness :
    connectURLParameters ("/api/".toList ++ ':' :: "action".toList)
        ("/api/".toList ++ "login".toList)
      = [(String.mk "action".toList, String.mk ("login".toList.takeWhile (fun c => c ≠ '/')))] :=
  connectURLParameters_single "/api/".toList "action".toList "login".toList
    (by decide) (by decide)

/-- Counterexample for claim C3: the template `/a/:x` compiled to
`/a/([^/]*)` matches the requested path `/b/a/c` (at offset 2, capturing the
positional run `c`), yet `connectURLParameters` assigns `x ↦ ""` — not the
run occupying the token's position. -/
theorem connect_positional_mismatch_cex :
    patSearchFrom (urlParameterRegexOf "/a/:x".toList) "/b/a/c".toList
        = some (2, 4, ["c".toList])
    ∧ connectURLParameters "/a/:x".toList "/b/a/c".toList = [("x", "")]
    ∧ ("" : String) ≠ "c" :=
  ⟨by decide, by decide, by decide⟩

/-- Claim C1: route resolution follows the fixed precedence order — exact
lookup by method plus normalized path; failing that, parameterized matching;
then regex matching in registration order; then static matching, consulted
only for GET and only after the three previous stages failed; and finally the
fallback. -/
theorem resolveRoute_precedence (st : AquaState) (method requestedPath : String) :
    (∀ r, resolveRoute st method requestedPath = .exact r ↔
      lookupKey st.routes (method ++ requestedPath) = some r)
    ∧ (∀ r, resolveRoute st method requestedPath = .param r ↔
      lookupKey st.routes (method ++ requestedPath) = none
      ∧ findRouteWithMatchingURLParameters requestedPath st.routes = some r)
    ∧ (∀ rr, resolveRoute st method requestedPath = .regex rr ↔
      lookupKey st.routes (method ++ requestedPath) = none
      ∧ findRouteWithMatchingURLParameters requestedPath st.routes = none
      ∧ findMatchingRegexRoute requestedPath st.regexRoutes = some rr)
    ∧ (∀ sr, resolveRoute st method requestedPath = .staticMatch sr ↔
      method = "GET"
      ∧ lookupKey st.routes (method ++ requestedPath) = none
      ∧ findRouteWithMatchingURLParameters requestedPath st.routes = none
      ∧ findMatchingRegexRoute requestedPath st.regexRoutes = none
      ∧ findMatchingStaticRoute requestedPath st.staticRoutes = some sr)
    ∧ (resolveRoute st method requestedPath = .fallback ↔
      lookupKey st.routes (method ++ requestedPath) = none
      ∧ findRouteWithMatchingURLParameters requestedPath st.routes = none
      ∧ findMatchingRegexRoute requestedPath st.regexRoutes = none
      ∧ (method = "GET" → findMatchingStaticRoute requestedPath st.staticRoutes = none)) := by
  cases h1 : lookupKey st.routes (method ++ requestedPath) with
  | some r0 => simp [resolveRoute, h1]
  | none =>
    cases h2 : findRouteWithMatchingURLParameters requestedPath st.routes with
    | some r0 => simp [resolveRoute, h1, h2]
    | none =>
      cases h3 : findMatchingRegexRoute requestedPath st.regexRoutes with
      | some rr0 => simp [resolveRoute, h1, h2, h3]
      | none =>
        by_cases hm : method = "GET"
        · subst hm
          cases h4 : findMatchingStaticRoute requestedPath st.staticRoutes with
          | some sr0 => simp [resolveRoute, h1, h2, h3, h4]
          | none => simp [resolveRoute, h1, h2, h3, h4]
        · simp [resolveRoute, h1, h2, h3, hm]

/-- Witness for claim C1: on the empty registry every request resolves to the
fallback. -/
theorem resolveRoute_precedence_witness :
    resolveRoute emptyState "GET" "/w" = .fallback :=
  (resolveRoute_precedence emptyState "GET" "/w").2.2.2.2.mpr
    ⟨rfl, rfl, rfl, fun _ => rfl⟩

/-- Claim C2 (amended): when the router selects a parameterized route and some
extracted parameter value is the empty string, the dispatcher responds
directly via the no-route-found path (fallback handler or fixed 404), without
trying remaining parameterized candidates, regex routes or static routes. -/
theorem emptyParam_direct_noRouteFound (st : AquaState) (req : Request)
    (requestedPath : String) (route : Route)
    (h : (connectURLParameters route.path.toList requestedPath.toList).any
      (fun kv => kv.2 == "") = true) :
    respondToRequest st req requestedPath (.inl route) true
      = respondWithNoRouteFound st
          { req with parameters := connectURLParameters route.path.toList requestedPath.toList } := by
  unfold respondToRequest
  simp [unionPath, h]
  intro hall
  exfalso
  rcases List.any_eq_true.mp h with ⟨kv, hmem, hkv⟩
  rcases kv with ⟨k, val⟩
  simp at hkv
  subst hkv
  exact absurd hmem (by simpa using hall k)

/-- Witness for claim C2: the empty-parameter short-circuit at the route
`/a/:x` and requested path `/b/a/c`. -/
theorem emptyParam_direct_noRouteFound_witness :
    respondToRequest emptyState reqBAC "/b/a/c" (.inl routeAX) true
      = respondWithNoRouteFound emptyState
          { reqBAC with parameters := connectURLParameters routeAX.path.toList "/b/a/c".toList } :=
  emptyParam_direct_noRouteFound emptyState reqBAC "/b/a/c" routeAX (by decide)

/-- Counterexample for claim C2: with route `GET /a/:x` and a regex route
matching `/b/a/c` registered, the request `GET /b/a/c` selects the
parameterized route, extracts the empty value `x ↦ ""`, and the dispatcher
responds with the fixed no-route-found 404 — even though the regex route
matches (second conjunct) and, registered alone, would have produced the
response `"regex"` (third conjunct).  Resolution does not continue down the
precedence chain. -/
theorem emptyParam_skips_chain_cex :
    handleRequest paramAndRegexState { url := "/b/a/c", method := "GET" }
        = .respond { status := some 404, headers := [], body := "No registered route found." }
    ∧ (findMatchingRegexRoute "/b/a/c" paramAndRegexState.regexRoutes).isSome = true
    ∧ handleRequest regexOnlyState { url := "/b/a/c", method := "GET" }
        = .respond { status := none, headers := [], body := "regex" } :=
  ⟨by decide, by decide, by decide⟩

/-- Claim C4: the `Request` under construction gets its cookie map parsed only
when the guard `rawRequest.headers.get("cookies")` is truthy, while
`parseCookies` reads the header named `cookie` — so a request carrying the
standard `cookie` header (and no `cookies` header) gets an empty cookie map
(first conjunct), although the parse of that header is `{a: "1", b: "2"}` for
both `"a=1; b=2"` and `"a=1;b=2"` (second and third conjuncts), as the claim
states. -/
theorem cookie_guard_mismatch :
    (buildRequest { url := "/", method := "GET", headers := [("cookie", "a=1; b=2")] }).cookies
        = []
    ∧ parseCookies [("cookie", "a=1; b=2")] = [("a", some "1"), ("b", some "2")]
    ∧ parseCookies [("cookie", "a=1;b=2")] = [("a", some "1"), ("b", some "2")] :=
  ⟨by decide, by decide, by decide⟩

/-- Claim C5: a middleware returning a falsy result does not yield the
no-content fallback body — the assembly code dereferences
`responseAfterMiddlewares.statusCode` / `.content` on the falsy value, a
`TypeError` at the JS level: the dispatch crashes. -/
theorem falsy_middleware_crash :
    handleRequest noneMiddlewareState { url := "/", method := "GET" }
      = .crash (.typeError "property access on falsy middleware result") := by
  decide

/-- Counterexample for claim C6: the handler response carries header `X-A`
and cookie `c`, the middleware replaces it with a response carrying header
`X-B`, cookie `d` and redirect `/m` — yet the emitted headers come from the
pre-middleware response (only the body reflects the middleware), so the
emitted header list is not the middleware-derived one. -/
theorem middleware_headers_ignored_cex :
    handleRequest headerSwapState { url := "/h", method := "GET" }
        = .respond { status := none
                     headers := [("X-A", "1"), ("Set-Cookie", "c=1")]
                     body := "mbody" }
    ∧ [(("X-A" : String), ("1" : String)), ("Set-Cookie", "c=1")]
        ≠ [("X-B", "2"), ("Set-Cookie", "d=2"), ("Location", "/m")] :=
  ⟨by decide, by decide⟩

/-- Claim C6 (amended): in success-path response assembly the emitted headers,
appended `Set-Cookie` entries, redirect test and `Location` value are taken
from the pre-middleware handler response `fr` (first and second conjuncts:
they do not depend on the middleware result at all), while the body and the
status are taken from the middleware-transformed response `ram` (third and
fourth conjuncts). -/
theorem assembleSuccess_sources (fr ram ram' : Response) :
    (assembleSuccess fr ram).headers = (assembleSuccess fr ram').headers
    ∧ (assembleSuccess fr ram).headers
        = fr.headers ++ setCookieHeaders fr.cookies
          ++ (if truthyOptStr fr.redirect then [("Location", fr.redirect.getD "")] else [])
    ∧ (assembleSuccess fr ram).body = jsOrStr ram.content "No response content provided."
    ∧ (assembleSuccess fr ram).status
        = (if truthyOptStr fr.redirect then some (jsOrNat ram.statusCode 301)
           else ram.statusCode) := by
  unfold assembleSuccess
  cases h : truthyOptStr fr.redirect <;> simp [h]

/-- Counterexample for claim C7: `/search?q=a+b&x=` does not parse to exactly
`{q: "a b"}` — the empty-valued pair `x=` is kept, because
`"x=".split("=")[1]` is `""`, not `undefined`. -/
theorem parseQuery_keeps_empty_value_cex :
    parseQuery "/search?q=a+b&x=" = [("q", "a b"), ("x", "")]
    ∧ [(("q" : String), ("a b" : String)), ("x", "")] ≠ [("q", "a b")] :=
  ⟨by decide, by decide⟩

/-- Claim C7 (amended): query parsing splits the suffix after the last `?` on
`&`; a pair with an `=` is kept even when its value is empty, with the `+`
to space replacement and percent-decoding applied; only pairs with no `=` at
all or with an empty key are skipped.  So `/search?q=a+b&x=` parses to
`{q: "a b", x: ""}`, `/search?q=a+b&x` drops `x`, and `/search?=v&a=1` drops
the empty-keyed pair. -/
theorem parseQuery_empty_value_behavior :
    parseQuery "/search?q=a+b&x=" = [("q", "a b"), ("x", "")]
    ∧ parseQuery "/search?q=a+b&x" = [("q", "a b")]
    ∧ parseQuery "/search?=v&a=1" = [("a", "1")] :=
  ⟨by decide, by decide, by decide⟩

/-- Claim C8: a handler (or fallback-handler) response with a truthy
`redirect` and no explicit status is emitted with status 301 and a `Location`
header carrying the redirect target; an explicit nonzero status is kept (the
emitted status is `jsOrNat statusCode 301`, which is 301 exactly when the
status is unset or zero).  Success path with no middlewares (first conjunct),
fallback path (second conjunct), and the two defaulting equations (third and
fourth conjuncts). -/
theorem redirect_status_defaulting (st : AquaState) (req : Request)
    (requestedPath : String) (route : Route) (fallbackHandler : Handler)
    (r : Response) (t : String) (hr : r.redirect = some t) (ht : t ≠ "") :
    (st.middlewares = [] → route.responseHandler req = .ok (.obj r) →
      respondToRequest st req requestedPath (.inl route) false
        = .respond { status := some (jsOrNat r.statusCode 301)
                     headers := r.headers ++ setCookieHeaders r.cookies ++ [("Location", t)]
                     body := jsOrStr r.content "No response content provided." })
    ∧ (st.fallbackHandler = some fallbackHandler → fallbackHandler req = .ok (.obj r) →
      respondWithNoRouteFound st req
        = .respond { status := some (jsOrNat r.statusCode 301)
                     headers := r.headers ++ setCookieHeaders r.cookies ++ [("Location", t)]
                     body := jsOrStr r.content "No fallback response content provided." })
    ∧ (r.statusCode = none → jsOrNat r.statusCode 301 = 301)
    ∧ (∀ s : Nat, r.statusCode = some s → s ≠ 0 → jsOrNat r.statusCode 301 = s) := by
  refine ⟨?_, ?_, ?_, ?_⟩
  · intro hm hh
    simp [respondToRequest, hh, formatRawResponse, foldMiddlewares, hm, assembleSuccess,
      truthyOptStr, hr, ht]
  · intro hfb hh
    simp [respondWithNoRouteFound, hfb, hh, formatRawResponse, assembleFallback,
      truthyOptStr, hr, ht]
  · intro h
    simp [jsOrNat, h]
  · intro s hs h0
    simp [jsOrNat, hs, h0]

/-- Witness for claim C8: a handler response `{redirect: "/login"}` with no
explicit status yields status 301 and a `Location: /login` header, on both
the success and the fallback path. -/
theorem redirect_status_defaulting_witness :
    respondToRequest redirectFallbackState reqR "/r" (.inl redirectRoute) false
      = .respond { status := some (jsOrNat redirectResp.statusCode 301)
                   headers := redirectResp.headers ++ setCookieHeaders redirectResp.cookies
                     ++ [("Location", "/login")]
                   body := jsOrStr redirectResp.content "No response content provided." }
    ∧ respondWithNoRouteFound redirectFallbackState reqR
      = .respond { status := some (jsOrNat redirectResp.statusCode 301)
                   headers := redirectResp.headers ++ setCookieHeaders redirectResp.cookies
                     ++ [("Location", "/login")]
                   body := jsOrStr redirectResp.content "No fallback response content provided." } :=
  have h := redirect_status_defaulting redirectFallbackState reqR "/r" redirectRoute
    redirectHandler redirectResp "/login" rfl (by decide)
  ⟨h.1 rfl rfl, h.2.1 rfl rfl⟩

/-- Claim C9: for a GET request matched by a static route, the file path
handed to the file reader is exactly the route's folder concatenated with the
requested path after stripping the public prefix (first conjunct, fully
general: stripping the prefix from a path that starts with it leaves exactly
the remainder), with no rejection or normalization of `..` segments: the
request `GET /files/../secret.txt` against the static route
(folder `public/`, prefix `/files/`) hands `public/../secret.txt` to the
reader (second conjunct), which resolves to `secret.txt` — outside the
configured folder (third and fourth conjuncts). -/
theorem static_path_unsanitized :
    (∀ pfx rest : List Char, replaceFirstOccL pfx [] (pfx ++ rest) = rest)
    ∧ handleRequest staticState { url := "/files/../secret.txt", method := "GET" }
        = .staticRead "public/../secret.txt"
    ∧ resolveDots "public/../secret.txt" = "secret.txt"
    ∧ "public/".toList.isPrefixOf "secret.txt".toList = false :=
  ⟨replaceFirstOccL_append, by decide, by decide, by decide⟩

/-- Claim C10: handler invocation is unguarded — a throwing route handler
makes `respondToRequest` propagate the exception (first conjunct), a throwing
fallback handler makes `respondWithNoRouteFound` propagate it (second
conjunct), and the exception escapes the per-request dispatch of the
request-handling loop, which produces no response (third conjunct). -/
theorem unguarded_handler_exceptions :
    (∀ (st : AquaState) (req : Request) (requestedPath : String) (route : Route) (e : String),
      route.responseHandler req = .error e →
      respondToRequest st req requestedPath (.inl route) false = .crash (.thrown e))
    ∧ (∀ (st : AquaState) (req : Request) (fallbackHandler : Handler) (e : String),
      st.fallbackHandler = some fallbackHandler → fallbackHandler req = .error e →
      respondWithNoRouteFound st req = .crash (.thrown e))
    ∧ (∀ (st : AquaState) (raw : RawRequest) (route : Route) (e : String),
      st.ignoreTrailingSlash = false →
      lookupKey st.routes ((buildRequest raw).method ++ parseRequestPath raw.url) = some route →
      route.responseHandler (buildRequest raw) = .error e →
      handleRequest st raw = .crash (.thrown e)) := by
  refine ⟨?_, ?_, ?_⟩
  · intro st req requestedPath route e h
    simp [respondToRequest, h]
  · intro st req fallbackHandler e hfb h
    simp [respondWithNoRouteFound, hfb, h]
  · intro st raw route e hslash hlook h
    simp [handleRequest, hslash, resolveRoute, buildRequest] at hlook ⊢
    simp [buildRequest] at h
    simp [hlook, respondToRequest, h]

/-- Witness for claim C10: a handler throwing `"boom"` and a fallback handler
throwing `"fbboom"` both crash the dispatch, also at the level of the full
request-handling step. -/
theorem unguarded_handler_exceptions_witness :
    respondToRequest emptyState reqT "/t" (.inl throwRoute) false = .crash (.thrown "boom")
    ∧ respondWithNoRouteFound fbThrowState reqT = .crash (.thrown "fbboom")
    ∧ handleRequest throwRouteState { url := "/t", method := "GET" } = .crash (.thrown "boom") :=
  ⟨unguarded_handler_exceptions.1 emptyState reqT "/t" throwRoute "boom" rfl,
   unguarded_handler_exceptions.2.1 fbThrowState reqT fbThrow "fbboom" rfl rfl,
   unguarded_handler_exceptions.2.2 throwRouteState { url := "/t", method := "GET" }
     throwRoute "boom" rfl rfl rfl⟩

end Aqua
